import Mathlib

/-!
Verification of the Channel coordinator of laravel-echo-server
(`src/channels/channel.ts`), as a shallow embedding in Lean 4.

The embedding models the `Channel` class: channel classification
(`isPrivate`, `isPresence`, `isClientEvent`), the join/leave flows with their
side effects on the transport rooms and the key-value store, the presence
membership reconciliation (`removeInactive`), the client-event rebroadcast
(`clientEvent`) and the userId derivation (`onJoin`).

Side effects (key-value store reads/writes, room registration, event
emission, webhooks) are modelled as an explicit trace of `Effect` values;
results of asynchronous reads (the stored member list, the set of live
connection ids in a room) are passed in as parameters, which models an
execution of the promise chain that completes without interleaving.
-/

namespace Echo

/-- A presence-channel member as persisted in the store:
`{ userId: socket.userId, socketId: socket.id }`. -/
structure Member where
  userId : String
  socketId : String
deriving DecidableEq, Repr

/-- Values written to the key-value store by the coordinator:
the member list under `<channel>:members` and its length under
`<channel>:members-count`. -/
inductive Value where
  | members (l : List Member)
  | count (n : Nat)
deriving DecidableEq, Repr

/-- An argument of a socket event emission (the transport serializes strings
and numbers). -/
inductive EVal where
  | str (s : String)
  | num (n : Int)
deriving DecidableEq, Repr

/-- One observable side effect of the coordinator, in program order. -/
inductive Effect where
  | dbGet (key : String)
  | dbSet (key : String) (v : Value)
  | roomJoin (socketId channel : String)
  | roomLeave (socketId channel : String)
  | emitTo (socketId event : String) (args : List EVal)
  | broadcastExcept (channel senderId event : String) (args : List EVal)
  | webhook (channel event : String)
deriving DecidableEq, Repr

/-- The per-connection state the coordinator reads and writes: the connection
id `socket.id`, the derived `socket.userId` (absent until set; the code only
ever assigns it a non-empty digit string, so JS truthiness of `socket.userId`
is `Option.isSome` here), and the set of rooms the connection is registered
in (`socket.rooms`). -/
structure Socket where
  id : String
  userId : Option String
  rooms : List String
deriving DecidableEq, Repr

/-- The configuration options the modelled paths consult: whether a webhook
endpoint is configured (`options.hookEndpoint` truthy). Logging
(`options.devMode`) is not modelled as an effect. -/
structure Options where
  hookEndpoint : Bool
deriving DecidableEq, Repr

/-! ### Channel classification

The source keeps `_privateChannels = ['private-*', 'presence-*']` and
`_clientEvents = ['client-*']` (hard-coded in this class), and tests a name
against a pattern by `new RegExp(pattern.replace('\*', '.*')).test(name)`.
`String.replace` with a string argument replaces only the first `*`, and the
resulting regular expression is unanchored, so for a pattern of the shape
`lit*` (a literal without metacharacters followed by one trailing star) the
test succeeds exactly when `lit` occurs as a contiguous substring anywhere in
the name: `.*` matches any (possibly empty) suffix at the occurrence. -/

/-- Decides whether `pat` occurs as a contiguous substring of the second
list.  This is the semantics of the unanchored test
`new RegExp(lit ++ ".*").test s` for a metacharacter-free literal `lit`. -/
def containsSeg (pat : List Char) : List Char → Bool
  | [] => pat.isEmpty
  | c :: rest => pat.isPrefixOf (c :: rest) || containsSeg pat rest

/-- The pattern test the source performs for one configured glob pattern
`lit*`: replace the first `*` by `.*` and run the unanchored regex, which for
the fixed patterns equals substring containment of the literal part. -/
def globTest (pattern : String) (s : String) : Bool :=
  containsSeg (pattern.toList.takeWhile (fun c => c ≠ '*')) s.toList

/-- The hard-coded private-channel patterns of the source. -/
def privateChannelPatterns : List String := ["private-*", "presence-*"]

/-- The hard-coded client-event patterns of the source. -/
def clientEventPatterns : List String := ["client-*"]

/-- `Channel.isPrivate`: fold of the per-pattern regex test over
`_privateChannels`, mirroring the `forEach` accumulator of the source. -/
def isPrivate (channel : String) : Bool :=
  privateChannelPatterns.foldl (fun acc pat => acc || globTest pat channel) false

/-- `Channel.isClientEvent`: fold of the per-pattern regex test over
`_clientEvents`. -/
def isClientEvent (event : String) : Bool :=
  clientEventPatterns.foldl (fun acc pat => acc || globTest pat event) false

/-- `Channel.isPresence`: the source checks
`channel.lastIndexOf('presence-', 0) === 0`, the JS idiom for a literal
prefix check. -/
def isPresence (channel : String) : Bool :=
  "presence-".toList.isPrefixOf channel.toList

/-- `Channel.isInChannel`: `!!socket.rooms[channel]`. -/
def isInChannel (socket : Socket) (channel : String) : Bool :=
  socket.rooms.contains channel

/-! Correctness of the substring decision procedure. -/

theorem containsSeg_iff (pat l : List Char) :
    containsSeg pat l = true ↔ pat <:+: l := by
  induction l with
  | nil =>
    simp [containsSeg, List.isEmpty_iff]
  | cons c rest ih =>
    simp [containsSeg, ih, List.infix_cons_iff, List.isPrefixOf_iff_prefix]

/-! ### The userId derivation (`Channel.onJoin`)

`Channel.onJoin` runs `channel.match(/user.(\d*)/)` and assigns
`socket.userId = match[1]` when the match exists and its capture is
non-empty.  The regex is unanchored with leftmost-match semantics: at the
first position where the four letters `user` followed by one arbitrary
character occur (`.` matches any character; channel names contain no
newlines), the maximal digit run that follows is captured — possibly the
empty run, in which case `match[1]` is falsy and nothing is assigned. -/

/-- Does /user./ match at the head of `l`: the literal `user` followed by at
least one further character. -/
def matchUserHere (l : List Char) : Bool :=
  "user".toList.isPrefixOf l && decide (5 ≤ l.length)

/-- Leftmost-match capture of `channel.match(/user.(\d*)/)`: `none` when no
position matches, otherwise the digit run captured at the first matching
position. -/
def userMatch : List Char → Option (List Char)
  | [] => none
  | c :: rest =>
      if matchUserHere (c :: rest) then
        some (((c :: rest).drop 5).takeWhile (fun d => d.isDigit))
      else userMatch rest

/-- `Channel.onJoin`: set `socket.userId` to the captured digits when the
regex matched with a non-empty capture; otherwise leave the socket
untouched. (The devMode log line is not modelled.) -/
def onJoin (socket : Socket) (channel : String) : Socket :=
  match userMatch channel.toList with
  | some ds => if ds.isEmpty then socket else { socket with userId := some (String.mk ds) }
  | none => socket

/-! ### Presence membership reconciliation -/

/-- `Channel.removeInactive`: filter the stored member list (defaulting to
`[]` when absent), keeping exactly the entries whose `socketId` is among the
live client ids of the channel's room and whose `userId` differs from the
joining member's. -/
def removeInactive (clients : List String) (members : Option (List Member))
    (member : Member) : List Member :=
  (members.getD []).filter
    (fun m => clients.contains m.socketId && m.userId != member.userId)

/-- The member-list update performed by `Channel.leave` on a non-presence
channel: drop every entry bearing the leaving connection's socket id. -/
def leaveUpdate (socketId : String) (storeMembers : Option (List Member)) :
    List Member :=
  (storeMembers.getD []).filter (fun m => m.socketId != socketId)

/-! ### Authorization results -/

/-- A denial from the backend authenticator: a human-readable reason and an
HTTP-style status code. -/
structure AuthDenial where
  reason : String
  status : Int
deriving DecidableEq, Repr

/-- A grant from the backend authenticator; for presence channels its
`channel_data` decodes (best effort, falling back to the raw payload) to the
joining member's identity. The model carries the decoded member. -/
structure AuthGrant where
  channelData : Member
deriving DecidableEq, Repr

/-- The payload of a join request: `data.channel`. -/
structure JoinData where
  channel : String
deriving DecidableEq, Repr

/-! ### The presence-channel delegate

`PresenceChannel` lives in `src/channels/presence-channel.ts`, which is not
part of the sources at hand; its two operations used by `Channel` are
modelled from the spec. -/

/-- Modelled from the spec: `PresenceChannel.join` (file
`src/channels/presence-channel.ts` is missing from the sources). Spec 4.3:
read the current membership snapshot, query the live connection ids of the
room, drop members whose socketId is not live and members whose userId
equals the joining member's, append the new member, persist the resulting
sequence and its length. -/
def presenceJoin (clients : List String) (storeMembers : Option (List Member))
    (channel : String) (member : Member) : List Effect :=
  let l := removeInactive clients storeMembers member ++ [member]
  [Effect.dbGet (channel ++ ":members"),
   Effect.dbSet (channel ++ ":members") (Value.members l),
   Effect.dbSet (channel ++ ":members-count") (Value.count l.length)]

/-- Modelled from the spec: `PresenceChannel.leave` (file
`src/channels/presence-channel.ts` is missing from the sources). Spec 4.3:
read the snapshot, remove the entry matching the leaving connection's
socketId, persist the resulting sequence and its length; no live-set
cross-check on leave. -/
def presenceLeave (storeMembers : Option (List Member)) (channel : String)
    (socketId : String) : List Effect :=
  let l := (storeMembers.getD []).filter (fun m => m.socketId != socketId)
  [Effect.dbGet (channel ++ ":members"),
   Effect.dbSet (channel ++ ":members") (Value.members l),
   Effect.dbSet (channel ++ ":members-count") (Value.count l.length)]

/-! ### The join flow -/

/-- `Channel.joinPrivate`: run the authorizer; on a grant register the room,
run the presence bookkeeping when the channel is a presence channel, then
`onJoin`; on a denial emit a `subscription_error` event to the requesting
connection carrying the channel name and the denial's status (the reason is
only written to the devMode log, which is not modelled). The authorizer's
outcome is passed in as `auth`, modelling the resolved promise of
`PrivateChannel.authenticate`. -/
def joinPrivate (clients : List String) (auth : Except AuthDenial AuthGrant)
    (storeMembers : Option (List Member)) (socket : Socket) (d : JoinData) :
    Socket × List Effect :=
  match auth with
  | Except.error e =>
      (socket,
       [Effect.emitTo socket.id "subscription_error"
          [EVal.str d.channel, EVal.num e.status]])
  | Except.ok res =>
      let s1 : Socket := { socket with rooms := d.channel :: socket.rooms }
      let presEff : List Effect :=
        if isPresence d.channel then
          presenceJoin clients storeMembers d.channel res.channelData
        else []
      (onJoin s1 d.channel,
       Effect.roomJoin socket.id d.channel :: presEff)

/-- `Channel.join`: nothing happens on a falsy (empty) channel name; a
private-style channel is routed to `joinPrivate`; otherwise run `onJoin`,
register the room, and when the socket carries a userId run the
presence-membership bookkeeping (read members, reconcile via
`removeInactive`, append the joining member, persist the list and its
length). The store read result and the room's live client ids are passed in
as parameters, modelling a promise chain completing without interleaving. -/
def join (clients : List String) (auth : Except AuthDenial AuthGrant)
    (storeMembers : Option (List Member)) (socket : Socket) (d : JoinData) :
    Socket × List Effect :=
  if d.channel = "" then (socket, [])
  else if isPrivate d.channel then joinPrivate clients auth storeMembers socket d
  else
    let s1 := onJoin socket d.channel
    let s2 : Socket := { s1 with rooms := d.channel :: s1.rooms }
    match s2.userId with
    | none => (s2, [Effect.roomJoin socket.id d.channel])
    | some uid =>
        let member : Member := { userId := uid, socketId := socket.id }
        let l := removeInactive clients storeMembers member ++ [member]
        (s2,
         [Effect.roomJoin socket.id d.channel,
          Effect.dbGet (d.channel ++ ":members"),
          Effect.dbSet (d.channel ++ ":members") (Value.members l),
          Effect.dbSet (d.channel ++ ":members-count") (Value.count l.length)])

/-! ### The leave flow -/

/-- `Channel.leave`: nothing happens on a falsy (empty) channel name; a
presence channel delegates membership bookkeeping to the presence handler;
every other channel reads the member list, drops the leaving socketId's
entries and persists the list and its length. In all cases the room
registration is dropped, and a webhook fires when an endpoint is configured.
The trace lists the effects in program-text order; the store writes resolve
asynchronously after the synchronous `socket.leave` call. -/
def leave (opts : Options) (storeMembers : Option (List Member))
    (socket : Socket) (channel : String) : Socket × List Effect :=
  if channel = "" then (socket, [])
  else
    let membership : List Effect :=
      if isPresence channel then
        presenceLeave storeMembers channel socket.id
      else
        [Effect.dbGet (channel ++ ":members"),
         Effect.dbSet (channel ++ ":members")
           (Value.members (leaveUpdate socket.id storeMembers)),
         Effect.dbSet (channel ++ ":members-count")
           (Value.count (leaveUpdate socket.id storeMembers).length)]
    ({ socket with rooms := socket.rooms.filter (fun r => r != channel) },
     membership ++ [Effect.roomLeave socket.id channel]
       ++ (if opts.hookEndpoint then [Effect.webhook channel "leave"] else []))

/-! ### Client events -/

/-- The decoded payload of a client-event frame: `{event, channel, data}`.
The source first tries `JSON.parse` on the raw frame, falling back to the
raw value; the model takes the decoded record. -/
structure ClientEventData where
  event : String
  channel : String
  payload : EVal
deriving DecidableEq, Repr

/-- `Channel.clientEvent`: guard on JS truthiness of `data.event` and
`data.channel` (non-empty strings), then rebroadcast
`(data.event, data.channel, data.data)` to the channel's room excluding the
sender exactly when the event name is a client event, the channel is
private-style and the sender is registered in the channel's room. -/
def clientEvent (socket : Socket) (d : ClientEventData) : List Effect :=
  if d.event ≠ "" ∧ d.channel ≠ "" then
    if isClientEvent d.event && isPrivate d.channel && isInChannel socket d.channel then
      [Effect.broadcastExcept d.channel socket.id d.event
        [EVal.str d.channel, d.payload]]
    else []
  else []

/-! ### Claim-side notions

These definitions follow the words of the spec (not the source); they state
what a claim asserts, to be compared with the behaviour of the embedded
code. -/

/-- At most one member entry per socketId, as a computable check. -/
def uniqueSockets : List Member → Bool
  | [] => true
  | m :: rest => rest.all (fun x => x.socketId != m.socketId) && uniqueSockets rest

/-- Does `l` start with the literal five characters `user.` followed by at
least one digit. -/
def startsWithUserDotDigit (l : List Char) : Bool :=
  "user.".toList.isPrefixOf l &&
    (match l.drop 5 with
     | d :: _ => d.isDigit
     | [] => false)

/-- The claim's reading of the userId pattern: the name contains a literal
segment `user.` (with an actual dot) followed by at least one digit. Stated
from the claim's words, to be compared with the code's `userMatch`. -/
def hasLiteralUserSeg : List Char → Bool
  | [] => false
  | c :: rest => startsWithUserDotDigit (c :: rest) || hasLiteralUserSeg rest

/-- True when an effect is neither a store access nor a room registration:
the frame of effects a denied join is allowed to produce. -/
def isStoreOrRoomFree : Effect → Bool
  | Effect.dbSet _ _ => false
  | Effect.dbGet _ => false
  | Effect.roomJoin _ _ => false
  | _ => true

/-! ### Shared lemmas -/

/-- A denied private join resolves to the unchanged socket plus a single
`subscription_error` emission carrying the channel name and the status. -/
theorem joinPrivate_denied_eq (clients : List String) (e : AuthDenial)
    (ms : Option (List Member)) (socket : Socket) (d : JoinData) :
    joinPrivate clients (Except.error e) ms socket d =
      (socket,
       [Effect.emitTo socket.id "subscription_error"
          [EVal.str d.channel, EVal.num e.status]]) := rfl

/-- The effect trace of a leave on a non-empty, non-presence channel. -/
theorem leave_nonpresence_eq (opts : Options) (ms : Option (List Member))
    (socket : Socket) (channel : String)
    (hch : channel ≠ "") (hp : isPresence channel = false) :
    (leave opts ms socket channel).2 =
      [Effect.dbGet (channel ++ ":members"),
       Effect.dbSet (channel ++ ":members")
         (Value.members (leaveUpdate socket.id ms)),
       Effect.dbSet (channel ++ ":members-count")
         (Value.count (leaveUpdate socket.id ms).length),
       Effect.roomLeave socket.id channel]
      ++ (if opts.hookEndpoint then [Effect.webhook channel "leave"] else []) := by
  simp [leave, hch, hp]

/-- The effect trace of a leave on any non-empty channel: the presence
branch (`presenceLeave`, spec 4.3) performs the same socketId-filtering
update as the non-presence branch of `Channel.leave`, so a single trace
equation covers both. -/
theorem leave_effects_eq (opts : Options) (ms : Option (List Member))
    (socket : Socket) (channel : String) (hch : channel ≠ "") :
    (leave opts ms socket channel).2 =
      [Effect.dbGet (channel ++ ":members"),
       Effect.dbSet (channel ++ ":members")
         (Value.members (leaveUpdate socket.id ms)),
       Effect.dbSet (channel ++ ":members-count")
         (Value.count (leaveUpdate socket.id ms).length),
       Effect.roomLeave socket.id channel]
      ++ (if opts.hookEndpoint then [Effect.webhook channel "leave"] else []) := by
  by_cases hp : isPresence channel = true
  · simp [leave, hch, hp, presenceLeave, leaveUpdate]
  · exact leave_nonpresence_eq opts ms socket channel hch (Bool.not_eq_true _ ▸ hp)

/-- The pairwise reading of the uniqueness check. -/
theorem uniqueSockets_iff (l : List Member) :
    uniqueSockets l = true ↔ l.Pairwise (fun a b => a.socketId ≠ b.socketId) := by
  induction l with
  | nil => simp [uniqueSockets]
  | cons m rest ih =>
    rw [List.pairwise_cons]
    simp only [uniqueSockets, Bool.and_eq_true, List.all_eq_true, bne_iff_ne, ih]
    constructor
    · rintro ⟨h1, h2⟩
      exact ⟨fun b hb => Ne.symm (h1 b hb), h2⟩
    · rintro ⟨h1, h2⟩
      exact ⟨fun b hb => Ne.symm (h1 b hb), h2⟩

/-- The reconciliation filter, restated with propositional connectives. -/
theorem removeInactive_eq_filter (clients : List String) (S : List Member)
    (m : Member) :
    removeInactive clients (some S) m =
      S.filter (fun e => decide (e.socketId ∈ clients ∧ e.userId ≠ m.userId)) := by
  unfold removeInactive
  simp only [Option.getD_some]
  apply List.filter_congr
  intro e _
  rw [Bool.eq_iff_iff]
  simp [List.contains, List.elem_iff]

/-! ### The claims -/

/-- C2 (counterexample): leaving the non-presence channel `foo` does read
`foo:members` and write both `foo:members` and `foo:members-count`, contrary
to the claim that leaves of non-presence channels never touch the membership
keys. -/
theorem C2_leave_nonpresence_cex :
    isPresence "foo" = false ∧
    Effect.dbGet "foo:members" ∈
      (leave ⟨false⟩ (some []) ⟨"A", none, ["foo"]⟩ "foo").2 ∧
    Effect.dbSet "foo:members" (Value.members []) ∈
      (leave ⟨false⟩ (some []) ⟨"A", none, ["foo"]⟩ "foo").2 ∧
    Effect.dbSet "foo:members-count" (Value.count 0) ∈
      (leave ⟨false⟩ (some []) ⟨"A", none, ["foo"]⟩ "foo").2 := by
  decide

/-- C2 (amended): when a connection leaves a non-presence channel, the
coordinator reads `<channel>:members`, writes back the list with the leaving
socketId's entries removed together with its length, drops the room
registration, and fires the webhook when configured. -/
theorem C2_leave_nonpresence (opts : Options) (ms : Option (List Member))
    (socket : Socket) (channel : String)
    (hch : channel ≠ "") (hp : isPresence channel = false) :
    (leave opts ms socket channel).2 =
      [Effect.dbGet (channel ++ ":members"),
       Effect.dbSet (channel ++ ":members")
         (Value.members (leaveUpdate socket.id ms)),
       Effect.dbSet (channel ++ ":members-count")
         (Value.count (leaveUpdate socket.id ms).length),
       Effect.roomLeave socket.id channel]
      ++ (if opts.hookEndpoint then [Effect.webhook channel "leave"] else []) :=
  leave_nonpresence_eq opts ms socket channel hch hp

/-- C2 (witness): a concrete leave of channel `foo` by socket `A` with the
webhook configured produces exactly the read, the two writes, the room
unregistration and the webhook call. -/
theorem C2_leave_nonpresence_witness :
    (leave ⟨true⟩ (some [⟨"7", "A"⟩, ⟨"9", "B"⟩]) ⟨"A", some "7", ["foo"]⟩ "foo").2 =
      [Effect.dbGet "foo:members",
       Effect.dbSet "foo:members" (Value.members [⟨"9", "B"⟩]),
       Effect.dbSet "foo:members-count" (Value.count 1),
       Effect.roomLeave "A" "foo",
       Effect.webhook "foo" "leave"] :=
  (C2_leave_nonpresence ⟨true⟩ (some [⟨"7", "A"⟩, ⟨"9", "B"⟩])
    ⟨"A", some "7", ["foo"]⟩ "foo" (by decide) (by decide)).trans (by decide)

/-- C3: when private-channel authorization is denied, the socket state
(including its room registrations) is unchanged and the produced effects
contain no store read, no store write and no room registration. -/
theorem C3_denied_no_state_change (clients : List String) (e : AuthDenial)
    (auth : Except AuthDenial AuthGrant) (ms : Option (List Member))
    (socket : Socket) (d : JoinData) (h : auth = Except.error e) :
    (joinPrivate clients auth ms socket d).1 = socket ∧
    (joinPrivate clients auth ms socket d).2.all isStoreOrRoomFree = true := by
  subst h
  rw [joinPrivate_denied_eq]
  exact ⟨rfl, rfl⟩

/-- C3 (witness): a concrete denial with status 401 leaves the socket
untouched and produces no store or room effect. -/
theorem C3_denied_no_state_change_witness :
    (joinPrivate [] (Except.error ⟨"Denied", 401⟩) none
      ⟨"A", none, []⟩ ⟨"private-x"⟩).1 = (⟨"A", none, []⟩ : Socket) ∧
    (joinPrivate [] (Except.error ⟨"Denied", 401⟩) none
      ⟨"A", none, []⟩ ⟨"private-x"⟩).2.all isStoreOrRoomFree = true :=
  C3_denied_no_state_change [] ⟨"Denied", 401⟩ _ none ⟨"A", none, []⟩
    ⟨"private-x"⟩ rfl

/-- C4 (counterexample): a denial with reason `Forbidden` and status 403
makes the requester receive `subscription_error` with arguments the channel
name and the status only — the reason string is not among the emitted
arguments, contrary to the claim that the event carries both the reason and
the status. -/
theorem C4_denied_event_cex :
    (joinPrivate [] (Except.error ⟨"Forbidden", 403⟩) none
      ⟨"A", none, []⟩ ⟨"private-room"⟩).2 =
      [Effect.emitTo "A" "subscription_error"
        [EVal.str "private-room", EVal.num 403]] ∧
    EVal.str "Forbidden" ∉ [EVal.str "private-room", EVal.num 403] := by
  decide

/-- C4 (amended): when private-channel authorization is denied, the
requesting connection (and only it — the trace holds a single targeted
emission) receives a `subscription_error` event carrying the channel name
and the denial's HTTP-style status code; the reason is not emitted. -/
theorem C4_denied_event (clients : List String) (e : AuthDenial)
    (auth : Except AuthDenial AuthGrant) (ms : Option (List Member))
    (socket : Socket) (d : JoinData) (h : auth = Except.error e) :
    (joinPrivate clients auth ms socket d).2 =
      [Effect.emitTo socket.id "subscription_error"
        [EVal.str d.channel, EVal.num e.status]] := by
  subst h
  rw [joinPrivate_denied_eq]

/-- C4 (witness): the spec's scenario with status 403. -/
theorem C4_denied_event_witness :
    (joinPrivate [] (Except.error ⟨"Forbidden", 403⟩) none
      ⟨"B", none, []⟩ ⟨"private-room"⟩).2 =
      [Effect.emitTo "B" "subscription_error"
        [EVal.str "private-room", EVal.num 403]] :=
  C4_denied_event [] ⟨"Forbidden", 403⟩ _ none ⟨"B", none, []⟩
    ⟨"private-room"⟩ rfl

/-- C5 (counterexample): `xprivate-1` begins with neither `private-` nor
`presence-`, yet `isPrivate` classifies it as private-style, because the
constructed regular expression is unanchored. -/
theorem C5_isPrivate_cex :
    isPrivate "xprivate-1" = true ∧
    "private-".toList.isPrefixOf "xprivate-1".toList = false ∧
    "presence-".toList.isPrefixOf "xprivate-1".toList = false := by
  decide

/-- C5 (amended): `isPrivate` returns true iff the name contains a substring
matching a configured private-style pattern — under the default patterns
`private-*` and `presence-*`, exactly the names containing `private-` or
`presence-` anywhere, not only those beginning with them. -/
theorem C5_isPrivate_contains (channel : String) :
    isPrivate channel = true ↔
      "private-".toList <:+: channel.toList ∨
      "presence-".toList <:+: channel.toList := by
  have h : isPrivate channel =
      (containsSeg "private-".toList channel.toList ||
        containsSeg "presence-".toList channel.toList) := rfl
  rw [h, Bool.or_eq_true, containsSeg_iff, containsSeg_iff]

/-- C6: `clientEvent` rebroadcasts the event verbatim (same event name, the
channel and the payload passed through) to the channel's room excluding the
sender exactly when the event name is a client event, the channel is
private-style, and the sender is registered in the channel's room; in every
other case nothing is emitted. The JS truthiness guard on `data.event` and
`data.channel` is subsumed: empty names match no pattern. -/
theorem C6_clientEvent_characterization (socket : Socket) (d : ClientEventData) :
    clientEvent socket d =
      if isClientEvent d.event = true ∧ isPrivate d.channel = true ∧
          isInChannel socket d.channel = true then
        [Effect.broadcastExcept d.channel socket.id d.event
          [EVal.str d.channel, d.payload]]
      else [] := by
  have hce : isClientEvent "" = false := rfl
  have hpe : isPrivate "" = false := rfl
  unfold clientEvent
  by_cases he : d.event = ""
  · simp [he, hce]
  · by_cases hc : d.channel = ""
    · simp [hc, hpe]
    · simp [he, hc, Bool.and_eq_true, and_assoc]

/-- C9: leaving any channel the connection never joined (no entry of the
stored list bears its socketId) rewrites the member list and count with
their previous values — the persisted state is unchanged — and only
unregisters the room membership defensively (plus the webhook when
configured). Both branches of `Channel.leave` are covered: the presence
branch delegates to the presence handler, whose leave performs the same
socketId-filtering update. -/
theorem C9_leave_not_joined (opts : Options) (l : List Member)
    (socket : Socket) (channel : String)
    (hch : channel ≠ "")
    (h : ∀ m ∈ l, m.socketId ≠ socket.id) :
    leaveUpdate socket.id (some l) = l ∧
    (leave opts (some l) socket channel).2 =
      [Effect.dbGet (channel ++ ":members"),
       Effect.dbSet (channel ++ ":members") (Value.members l),
       Effect.dbSet (channel ++ ":members-count") (Value.count l.length),
       Effect.roomLeave socket.id channel]
      ++ (if opts.hookEndpoint then [Effect.webhook channel "leave"] else []) := by
  have hl : leaveUpdate socket.id (some l) = l := by
    unfold leaveUpdate
    simp only [Option.getD_some]
    rw [List.filter_eq_self]
    intro m hm
    simpa using h m hm
  refine ⟨hl, ?_⟩
  rw [leave_effects_eq opts (some l) socket channel hch, hl]

/-- C9 (witness): socket `C` leaves the presence channel `presence-room`
whose stored list holds only sockets `A` and `B`; the written values equal
the stored ones. -/
theorem C9_leave_not_joined_witness :
    leaveUpdate "C" (some [⟨"7", "A"⟩, ⟨"9", "B"⟩]) = [⟨"7", "A"⟩, ⟨"9", "B"⟩] ∧
    (leave ⟨false⟩ (some [⟨"7", "A"⟩, ⟨"9", "B"⟩]) ⟨"C", none, []⟩ "presence-room").2 =
      [Effect.dbGet "presence-room:members",
       Effect.dbSet "presence-room:members" (Value.members [⟨"7", "A"⟩, ⟨"9", "B"⟩]),
       Effect.dbSet "presence-room:members-count" (Value.count 2),
       Effect.roomLeave "C" "presence-room"]
      ++ (if (false : Bool) then [Effect.webhook "presence-room" "leave"] else []) :=
  C9_leave_not_joined ⟨false⟩ [⟨"7", "A"⟩, ⟨"9", "B"⟩] ⟨"C", none, []⟩
    "presence-room" (by decide) (by decide)

/-- C10: a join request whose payload carries an empty channel name performs
nothing: the socket (its rooms and userId) is unchanged and no effect —
no authorization use, no room registration, no store access, no emission —
is produced. -/
theorem C10_join_empty_channel (clients : List String)
    (auth : Except AuthDenial AuthGrant) (ms : Option (List Member))
    (socket : Socket) (d : JoinData) (h : d.channel = "") :
    join clients auth ms socket d = (socket, []) := by
  simp [join, h]

/-- C10 (witness): a concrete join with an empty channel name is inert. -/
theorem C10_join_empty_channel_witness :
    join [] (Except.error ⟨"x", 500⟩) (some [⟨"7", "A"⟩])
      ⟨"A", some "7", ["r"]⟩ ⟨""⟩ = (⟨"A", some "7", ["r"]⟩, []) :=
  C10_join_empty_channel [] (Except.error ⟨"x", 500⟩) (some [⟨"7", "A"⟩])
    ⟨"A", some "7", ["r"]⟩ ⟨""⟩ rfl

/-- C1: a membership-tracked join that completes without interleaving, on a
non-private channel with the connection's userId `u` resolved, persists
under `<channel>:members` exactly the entries of the prior list `S` whose
socketId is in the live set and whose userId differs from `u` — in their
original order — with the joining member appended, and writes the length of
that list under `<channel>:members-count`. -/
theorem C1_join_reconciliation (clients : List String)
    (auth : Except AuthDenial AuthGrant) (S : List Member) (socket : Socket)
    (d : JoinData) (u : String)
    (hch : d.channel ≠ "") (hpriv : isPrivate d.channel = false)
    (huid : (onJoin socket d.channel).userId = some u) :
    (join clients auth (some S) socket d).2 =
      [Effect.roomJoin socket.id d.channel,
       Effect.dbGet (d.channel ++ ":members"),
       Effect.dbSet (d.channel ++ ":members")
         (Value.members
           (S.filter (fun e : Member => decide (e.socketId ∈ clients ∧ e.userId ≠ u))
             ++ [(⟨u, socket.id⟩ : Member)])),
       Effect.dbSet (d.channel ++ ":members-count")
         (Value.count
           ((S.filter (fun e : Member => decide (e.socketId ∈ clients ∧ e.userId ≠ u))
             ++ [(⟨u, socket.id⟩ : Member)]).length))] := by
  have hri := removeInactive_eq_filter clients S (⟨u, socket.id⟩ : Member)
  simp [join, hpriv, hch, huid, hri]

/-- C1 (witness): socket `A` (userId 7) joins `room` whose prior list holds
a live entry for `B` (userId 9) and a stale same-user entry for `C`; the
persisted list keeps `B`, drops `C`, appends `A`, and the count is 2. -/
theorem C1_join_reconciliation_witness :
    (join ["A", "B"] (Except.ok ⟨⟨"", ""⟩⟩) (some [⟨"9", "B"⟩, ⟨"7", "C"⟩])
      ⟨"A", some "7", []⟩ ⟨"room"⟩).2 =
      [Effect.roomJoin "A" "room",
       Effect.dbGet "room:members",
       Effect.dbSet "room:members" (Value.members [⟨"9", "B"⟩, ⟨"7", "A"⟩]),
       Effect.dbSet "room:members-count" (Value.count 2)] :=
  (C1_join_reconciliation ["A", "B"] (Except.ok ⟨⟨"", ""⟩⟩)
    [⟨"9", "B"⟩, ⟨"7", "C"⟩] ⟨"A", some "7", []⟩ ⟨"room"⟩ "7"
    (by decide) (by decide) rfl).trans (by decide)

/-- C7 (counterexample): the join reconciliation does not preserve
at-most-one-entry-per-socketId unconditionally. With prior list
`[{userId 1, socket A}]`, socket `A` live, and socket `A` joining with
userId 2 (its derived userId changed between joins, e.g. after joining a
`user.2`-named channel), the code keeps the live old entry (different
userId) and appends a second entry for the same socket. -/
theorem C7_unique_socket_cex :
    uniqueSockets [⟨"1", "A"⟩] = true ∧
    Effect.dbSet "room:members" (Value.members [⟨"1", "A"⟩, ⟨"2", "A"⟩]) ∈
      (join ["A"] (Except.ok ⟨⟨"", ""⟩⟩) (some [⟨"1", "A"⟩])
        ⟨"A", some "2", []⟩ ⟨"room"⟩).2 ∧
    uniqueSockets [⟨"1", "A"⟩, ⟨"2", "A"⟩] = false := by
  decide

/-- C7 (amended): every leave preserves at-most-one-entry-per-socketId, and
a join preserves it provided every prior entry bearing the joining socketId
carries the joining member's userId (which holds whenever the connection's
derived userId did not change between its joins). -/
theorem C7_unique_socket_invariant (sid : String) (L : List String)
    (S : List Member) (m : Member)
    (hS : uniqueSockets S = true)
    (hm : ∀ e ∈ S, e.socketId = m.socketId → e.userId = m.userId) :
    uniqueSockets (leaveUpdate sid (some S)) = true ∧
    uniqueSockets (removeInactive L (some S) m ++ [m]) = true := by
  rw [uniqueSockets_iff] at hS
  constructor
  · rw [uniqueSockets_iff]
    unfold leaveUpdate
    simp only [Option.getD_some]
    exact List.Pairwise.sublist (List.filter_sublist S) hS
  · rw [uniqueSockets_iff, List.pairwise_append]
    refine ⟨?_, by simp, ?_⟩
    · rw [removeInactive_eq_filter]
      exact List.Pairwise.sublist (List.filter_sublist S) hS
    · intro a ha b hb
      rw [List.mem_singleton] at hb
      subst hb
      rw [removeInactive_eq_filter, List.mem_filter] at ha
      obtain ⟨haS, hpred⟩ := ha
      rw [decide_eq_true_eq] at hpred
      intro hEq
      exact hpred.2 (hm a haS hEq)

/-- C7 (witness): user 7 reconnects as socket `A2` while the stale entry for
socket `A` is still recorded and live; both updates keep the list free of
duplicate socket ids (the join collapses the same-user entry). -/
theorem C7_unique_socket_invariant_witness :
    uniqueSockets (leaveUpdate "B" (some [⟨"7", "A"⟩])) = true ∧
    uniqueSockets
      (removeInactive ["A"] (some [⟨"7", "A"⟩]) ⟨"7", "A2"⟩ ++ [⟨"7", "A2"⟩]) = true :=
  C7_unique_socket_invariant "B" ["A"] [⟨"7", "A"⟩] ⟨"7", "A2"⟩
    (by decide) (by decide)

/-- Structure of a successful leftmost match of /user.(\d*)/: the captured
run consists of digits and sits immediately after an occurrence of the four
letters `user` plus one arbitrary separator character. -/
theorem userMatch_spec (l : List Char) : ∀ ds, userMatch l = some ds →
    ds.all (fun c => c.isDigit) = true ∧
    ∃ pre c post, l = pre ++ 'u' :: 's' :: 'e' :: 'r' :: c :: (ds ++ post) := by
  induction l with
  | nil => intro ds h; simp [userMatch] at h
  | cons a rest ih =>
    intro ds h
    simp only [userMatch] at h
    by_cases hm : matchUserHere (a :: rest) = true
    · rw [if_pos hm] at h
      have hds : ds = ((a :: rest).drop 5).takeWhile (fun d => d.isDigit) :=
        (Option.some.inj h).symm
      have hm' := hm
      unfold matchUserHere at hm'
      rw [Bool.and_eq_true, List.isPrefixOf_iff_prefix, decide_eq_true_eq] at hm'
      obtain ⟨⟨t, ht⟩, hlen⟩ := hm'
      have htoL : "user".toList = ['u', 's', 'e', 'r'] := rfl
      rw [htoL] at ht
      cases t with
      | nil =>
        rw [List.append_nil] at ht
        exfalso
        have h4 : (a :: rest).length = 4 := by rw [← ht]; rfl
        omega
      | cons c t2 =>
        have hl2 : a :: rest = 'u' :: 's' :: 'e' :: 'r' :: c :: t2 := by
          rw [← ht]; rfl
        have hdrop : (a :: rest).drop 5 = t2 := by rw [hl2]; rfl
        constructor
        · rw [List.all_eq_true]
          intro x hx
          rw [hds, hdrop] at hx
          exact List.mem_takeWhile_imp hx
        · refine ⟨[], c, t2.dropWhile (fun d => d.isDigit), ?_⟩
          rw [List.nil_append, hds, hdrop, List.takeWhile_append_dropWhile]
          exact hl2
    · rw [if_neg hm] at h
      obtain ⟨hall, pre, c, post, hdec⟩ := ih ds h
      exact ⟨hall, a :: pre, c, post, by rw [List.cons_append, hdec]⟩

/-- C8 (counterexample): the channel name `userz42` contains no literal
segment `user.` followed by digits, yet joining it sets the connection's
userId to `42`: the pattern's `.` matches any character, not only a dot. -/
theorem C8_userId_derivation_cex :
    hasLiteralUserSeg "userz42".toList = false ∧
    (onJoin ⟨"A", none, []⟩ "userz42").userId = some "42" := by
  decide

/-- C8 (amended): on every join (not only the first), when the channel name
matches /user.(\d*)/ with a non-empty capture at its leftmost matching
position — the four letters `user` followed by one arbitrary character
followed by a maximal non-empty digit run — the connection's userId is
overwritten with those digits; when the name has no matching position, or
the first matching position is followed by no digit, the socket is left
unchanged. -/
theorem C8_userId_derivation (socket : Socket) (channel : String) :
    (∀ ds, userMatch channel.toList = some ds → ds ≠ [] →
       onJoin socket channel = { socket with userId := some (String.mk ds) } ∧
       ds.all (fun c => c.isDigit) = true ∧
       ∃ pre c post,
         channel.toList = pre ++ 'u' :: 's' :: 'e' :: 'r' :: c :: (ds ++ post)) ∧
    (userMatch channel.toList = none → onJoin socket channel = socket) ∧
    (userMatch channel.toList = some [] → onJoin socket channel = socket) := by
  refine ⟨?_, ?_, ?_⟩
  · intro ds h hne
    obtain ⟨hall, hdec⟩ := userMatch_spec channel.toList ds h
    refine ⟨?_, hall, hdec⟩
    unfold onJoin
    rw [h]
    simp [List.isEmpty_iff, hne]
  · intro h
    unfold onJoin
    rw [h]
  · intro h
    unfold onJoin
    rw [h]
    rfl

/-- C8 (witness): joining `order.user.33` sets the userId to `33`. -/
theorem C8_userId_derivation_witness :
    onJoin ⟨"A", none, []⟩ "order.user.33" = ⟨"A", some "33", []⟩ :=
  (((C8_userId_derivation ⟨"A", none, []⟩ "order.user.33").1 ['3', '3']
    (by decide) (by decide)).1).trans (by decide)

end Echo
